import Mathlib

/-!
Shallow embedding of the discovery-product-push server
(`server/storage.ts`: class `MemStorage`, and the route handlers of
`registerRoutes`).  JavaScript `Map`s are modelled as association lists in
insertion order (`Map.set` on an existing key updates in place, on a fresh
key appends at the end; `Map.delete` removes the entry and reports whether
it existed).  `Date` timestamps are modelled as natural-number clock values
supplied by the caller; the several `new Date()` calls inside one request
are modelled as a single clock instant.  The JavaScript truthiness tests
`data.templateId ? ... : null`, `template?.template || "Default..."` and
`x || ''` are embedded explicitly, and `String.prototype.replace` with a
string replacement value includes ECMAScript GetSubstitution — the dollar
escapes for the matched text and the surrounding subject parts — for the
capture-group-free token regexes of the source.
-/

namespace DPP

/-- Customer record (`shared/schema.ts`, table `customers`; all fields non-null). -/
structure Customer where
  id : Nat
  name : String
  email : String
  phoneNumber : String
deriving DecidableEq

/-- Product record (`shared/schema.ts`, table `products`). -/
structure Product where
  id : Nat
  name : String
  description : Option String
  storeLink : Option String
  thumbnailUrl : Option String
  isActive : Nat
deriving DecidableEq

/-- Notification record (`shared/schema.ts`, table `notifications`).
`customerPhone` is stored from the customer's non-null `phoneNumber`. -/
structure Notification where
  id : Nat
  customerId : Nat
  customerEmail : String
  customerName : String
  customerPhone : String
  notificationBody : String
  templateId : Option Nat
  productIds : List Nat
  timestamp : Nat
deriving DecidableEq

/-- Notification template record (`shared/schema.ts`, table `notification_templates`). -/
structure NotificationTemplate where
  id : Nat
  name : String
  template : String
  description : Option String
  isDefault : Nat
  createdAt : Nat
deriving DecidableEq

/-- Payload of `POST /api/customers` after `insertCustomerSchema.parse`. -/
structure InsertCustomer where
  name : String
  email : String
  phoneNumber : String
deriving DecidableEq

/-- Payload of `POST /api/products` after `insertProductSchema.parse`. -/
structure InsertProduct where
  name : String
  description : Option String
  storeLink : Option String
  thumbnailUrl : Option String
  isActive : Option Nat
deriving DecidableEq

/-- Payload of `POST /api/templates` after `insertNotificationTemplateSchema.parse`. -/
structure InsertNotificationTemplate where
  name : String
  template : String
  description : Option String
  isDefault : Option Nat
deriving DecidableEq

/-- Payload of `PUT /api/customers/:id` after `insertCustomerSchema.partial().parse`:
every field optional, `id` is not part of the schema (it is omitted). -/
structure CustomerPatch where
  name : Option String
  email : Option String
  phoneNumber : Option String
deriving DecidableEq

/-- Payload of `PUT /api/products/:id` after `insertProductSchema.partial().parse`. -/
structure ProductPatch where
  name : Option String
  description : Option (Option String)
  storeLink : Option (Option String)
  thumbnailUrl : Option (Option String)
  isActive : Option Nat
deriving DecidableEq

/-- Payload of `PUT /api/templates/:id` after `insertNotificationTemplateSchema.partial().parse`. -/
structure TemplatePatch where
  name : Option String
  template : Option String
  description : Option (Option String)
  isDefault : Option Nat
deriving DecidableEq

/-- JavaScript `Map.get`. -/
def mapGet (k : Nat) : List (Nat × α) → Option α
  | [] => none
  | (k', v) :: rest => if k' = k then some v else mapGet k rest

/-- JavaScript `Map.set`: update in place if the key exists (keeping insertion
order), otherwise append at the end. -/
def mapSet (k : Nat) (v : α) : List (Nat × α) → List (Nat × α)
  | [] => [(k, v)]
  | (k', v') :: rest => if k' = k then (k, v) :: rest else (k', v') :: mapSet k v rest

/-- JavaScript `Map.delete`: remove the entry and report whether it existed. -/
def mapDel (k : Nat) : List (Nat × α) → Bool × List (Nat × α)
  | [] => (false, [])
  | (k', v) :: rest =>
    if k' = k then (true, rest)
    else
      let r := mapDel k rest
      (r.1, (k', v) :: r.2)

/-- The `MemStorage` state: the four `Map`s plus the four id counters. -/
structure MemStorage where
  customers : List (Nat × Customer)
  products : List (Nat × Product)
  notifications : List (Nat × Notification)
  notificationTemplates : List (Nat × NotificationTemplate)
  currentCustomerId : Nat
  currentProductId : Nat
  currentNotificationId : Nat
  currentNotificationTemplateId : Nat
deriving DecidableEq

/-- Try to strip `pat` from the front of `s`; on success return the remainder.
This is "the regex matches at this position" for the literal token regexes of
`createNotifications`. -/
def stripTok : List Char → List Char → Option (List Char)
  | [], s => some s
  | _ :: _, [] => none
  | p :: ps, c :: cs => if p = c then stripTok ps cs else none

/-- Worker for ECMAScript GetSubstitution: scan the replacement value one
character at a time; the Bool records a pending dollar sign.  After a dollar:
a second dollar inserts a dollar, an ampersand inserts the matched text, the
character 0x60 (backquote) inserts the part of the original subject before
the match, the character 0x27 (quote) inserts the part after the match, and
anything else (including the digit and angle-bracket forms, which only apply
to capture groups, and a trailing dollar) leaves the dollar itself in
place. -/
def expandReplAux (matched pre suf : List Char) : Bool → List Char → List Char
  | true, [] => ['$']
  | false, [] => []
  | true, c :: rest =>
    if c = '$' then '$' :: expandReplAux matched pre suf false rest
    else if c = '&' then matched ++ expandReplAux matched pre suf false rest
    else if c = '\x60' then pre ++ expandReplAux matched pre suf false rest
    else if c = '\x27' then suf ++ expandReplAux matched pre suf false rest
    else '$' :: c :: expandReplAux matched pre suf false rest
  | false, c :: rest =>
    if c = '$' then expandReplAux matched pre suf true rest
    else c :: expandReplAux matched pre suf false rest

/-- ECMAScript GetSubstitution of a string replacement value for one match of
a capture-group-free regex: `matched` is the matched text, `pre` and `suf`
the parts of the original subject before and after the match. -/
def expandRepl (matched pre suf repl : List Char) : List Char :=
  expandReplAux matched pre suf false repl

/-- Fuel-indexed worker for global replacement with a literal pattern: scan
left to right over the subject, keep non-matching characters, and at each
non-overlapping occurrence of `pat` insert the replacement value after
GetSubstitution (`expandRepl`, against the original subject: `pre` is the
already-scanned part before the match, the stripped remainder the part after
it), continuing after the matched portion — the replacement text is not
rescanned.  This is `String.prototype.replace(/pat/g, repl)` for a literal,
capture-group-free pattern and a string `repl`.  The fuel only makes the
recursion structural; it is never exhausted when it starts at the subject
length and `pat` is non-empty. -/
def replaceAllF : Nat → List Char → List Char → List Char → List Char → List Char
  | 0, _, _, _, s => s
  | _ + 1, _, _, _, [] => []
  | n + 1, pat, repl, pre, c :: cs =>
    match stripTok pat (c :: cs) with
    | some rest => expandRepl pat pre rest repl ++ replaceAllF n pat repl (pre ++ pat) rest
    | none => c :: replaceAllF n pat repl (pre ++ [c]) cs

/-- Global replacement of the literal pattern `pat` by the string replacement
value `repl` in `s`, with JavaScript dollar substitution (empty pattern:
identity; the seven token patterns of the source are all non-empty). -/
def replaceAll (pat repl s : List Char) : List Char :=
  if pat = [] then s else replaceAllF s.length pat repl [] s

/-- Does `pat` occur as a contiguous run somewhere in `s`? -/
def occursIn (pat : List Char) : List Char → Bool
  | [] => (stripTok pat []).isSome
  | c :: cs => (stripTok pat (c :: cs)).isSome || occursIn pat cs

/-- String-level wrapper for `replaceAll`. -/
def replaceString (pat repl s : String) : String :=
  ⟨replaceAll pat.data repl.data s.data⟩

/-- Token replaced by the customer name (regex `/\{\{customer\.name\}\}/g`). -/
def tokCustomerName : String := "\x7b\x7bcustomer.name\x7d\x7d"

/-- Token replaced by the customer email. -/
def tokCustomerEmail : String := "\x7b\x7bcustomer.email\x7d\x7d"

/-- Token replaced by the customer phone number. -/
def tokCustomerPhone : String := "\x7b\x7bcustomer.phoneNumber\x7d\x7d"

/-- Token replaced by the product name. -/
def tokProductName : String := "\x7b\x7bproduct.name\x7d\x7d"

/-- Token replaced by the product description. -/
def tokProductDesc : String := "\x7b\x7bproduct.description\x7d\x7d"

/-- Token replaced by the product store link. -/
def tokProductLink : String := "\x7b\x7bproduct.storeLink\x7d\x7d"

/-- Token replaced by the product thumbnail URL. -/
def tokProductThumb : String := "\x7b\x7bproduct.thumbnailUrl\x7d\x7d"

/-- The seven recognized tokens, in the order the source substitutes them. -/
def tokenList : List String :=
  [tokCustomerName, tokCustomerEmail, tokCustomerPhone,
   tokProductName, tokProductDesc, tokProductLink, tokProductThumb]

/-- The ordered (token, substituted value) pairs of one interpolation run.
Optional product fields substitute the empty string when absent
(`product.description || ''` and friends); `customer.phoneNumber || ''`
coincides with the field itself since `'' || ''` is `''`. -/
def substPairs (c : Customer) (p : Product) : List (String × String) :=
  [(tokCustomerName, c.name), (tokCustomerEmail, c.email),
   (tokCustomerPhone, c.phoneNumber), (tokProductName, p.name),
   (tokProductDesc, p.description.getD ""), (tokProductLink, p.storeLink.getD ""),
   (tokProductThumb, p.thumbnailUrl.getD "")]

/-- The template interpolation of `createNotifications` (storage.ts lines
258-267): a chain of seven global replacements applied sequentially, in the
source's order. -/
def interpolate (t : String) (c : Customer) (p : Product) : String :=
  replaceString tokProductThumb (p.thumbnailUrl.getD "")
    (replaceString tokProductLink (p.storeLink.getD "")
      (replaceString tokProductDesc (p.description.getD "")
        (replaceString tokProductName p.name
          (replaceString tokCustomerPhone c.phoneNumber
            (replaceString tokCustomerEmail c.email
              (replaceString tokCustomerName c.name t))))))

/-- The same seven global replacements applied in a different order (product
tokens first, then customer tokens); used to test the claimed independence
of the substitution order. -/
def interpolateRev (t : String) (c : Customer) (p : Product) : String :=
  replaceString tokCustomerPhone c.phoneNumber
    (replaceString tokCustomerEmail c.email
      (replaceString tokCustomerName c.name
        (replaceString tokProductThumb (p.thumbnailUrl.getD "")
          (replaceString tokProductLink (p.storeLink.getD "")
            (replaceString tokProductDesc (p.description.getD "")
              (replaceString tokProductName p.name t))))))

/-- Embeds `MemStorage.getCustomer`. -/
def getCustomer (st : MemStorage) (id : Nat) : Option Customer :=
  mapGet id st.customers

/-- Embeds `MemStorage.getCustomerByEmail`: first customer (in insertion order) with
the given email. -/
def getCustomerByEmail (st : MemStorage) (email : String) : Option Customer :=
  (st.customers.map (·.2)).find? (fun c => decide (c.email = email))

/-- Embeds `MemStorage.getAllCustomers`: the values in insertion order. -/
def getAllCustomers (st : MemStorage) : List Customer :=
  st.customers.map (·.2)

/-- Embeds `MemStorage.createCustomer`: assign the next id, store, return the new record. -/
def createCustomer (st : MemStorage) (ins : InsertCustomer) : Customer × MemStorage :=
  let id := st.currentCustomerId
  let c : Customer := ⟨id, ins.name, ins.email, ins.phoneNumber⟩
  (c, { st with customers := mapSet id c st.customers, currentCustomerId := id + 1 })

/-- The spread `{ ...customer, ...updates }`: fields present in the patch
override; `id` is never in the patch (the insert schema omits it). -/
def mergeCustomer (c : Customer) (u : CustomerPatch) : Customer :=
  ⟨c.id, u.name.getD c.name, u.email.getD c.email, u.phoneNumber.getD c.phoneNumber⟩

/-- Embeds `MemStorage.updateCustomer`. -/
def updateCustomer (st : MemStorage) (id : Nat) (u : CustomerPatch) :
    Option Customer × MemStorage :=
  match mapGet id st.customers with
  | none => (none, st)
  | some c =>
    let c' := mergeCustomer c u
    (some c', { st with customers := mapSet id c' st.customers })

/-- Embeds `MemStorage.deleteCustomer`. -/
def deleteCustomer (st : MemStorage) (id : Nat) : Bool × MemStorage :=
  let r := mapDel id st.customers
  (r.1, { st with customers := r.2 })

/-- Embeds `MemStorage.getProduct`. -/
def getProduct (st : MemStorage) (id : Nat) : Option Product :=
  mapGet id st.products

/-- Embeds `MemStorage.createProduct`: optional fields default to `null`, `isActive`
defaults to `1` when undefined. -/
def createProduct (st : MemStorage) (ins : InsertProduct) : Product × MemStorage :=
  let id := st.currentProductId
  let p : Product :=
    ⟨id, ins.name, ins.description, ins.storeLink, ins.thumbnailUrl, ins.isActive.getD 1⟩
  (p, { st with products := mapSet id p st.products, currentProductId := id + 1 })

/-- The spread `{ ...product, ...updates }`. -/
def mergeProduct (p : Product) (u : ProductPatch) : Product :=
  ⟨p.id, u.name.getD p.name, u.description.getD p.description,
   u.storeLink.getD p.storeLink, u.thumbnailUrl.getD p.thumbnailUrl,
   u.isActive.getD p.isActive⟩

/-- Embeds `MemStorage.updateProduct`. -/
def updateProduct (st : MemStorage) (id : Nat) (u : ProductPatch) :
    Option Product × MemStorage :=
  match mapGet id st.products with
  | none => (none, st)
  | some p =>
    let p' := mergeProduct p u
    (some p', { st with products := mapSet id p' st.products })

/-- Embeds `MemStorage.deleteProduct`. -/
def deleteProduct (st : MemStorage) (id : Nat) : Bool × MemStorage :=
  let r := mapDel id st.products
  (r.1, { st with products := r.2 })

/-- Embeds `MemStorage.getNotification`. -/
def getNotification (st : MemStorage) (id : Nat) : Option Notification :=
  mapGet id st.notifications

/-- Notifications are "newer" when the second has a timestamp at most the
first's: the order of the comparator `(a, b) => b.timestamp - a.timestamp`. -/
def newerFirst (a b : Notification) : Prop := b.timestamp ≤ a.timestamp

instance : DecidableRel newerFirst := fun a b =>
  inferInstanceAs (Decidable (b.timestamp ≤ a.timestamp))

instance : IsTotal Notification newerFirst :=
  ⟨fun a b => Nat.le_total b.timestamp a.timestamp⟩

instance : IsTrans Notification newerFirst :=
  ⟨fun _ _ _ h h' => Nat.le_trans h' h⟩

/-- Embeds `MemStorage.getAllNotifications`: the stored values sorted newest-first.
The JavaScript `Array.prototype.sort` with that comparator is modelled as a
stable comparison sort. -/
def getAllNotifications (st : MemStorage) : List Notification :=
  List.insertionSort newerFirst (st.notifications.map (·.2))

/-- Embeds `MemStorage.getNotificationsByDateRange`: keep the notifications whose
timestamp lies in the inclusive range, then sort newest-first. -/
def getNotificationsByDateRange (st : MemStorage) (lo hi : Nat) : List Notification :=
  List.insertionSort newerFirst
    ((st.notifications.map (·.2)).filter
      (fun n => decide (lo ≤ n.timestamp) && decide (n.timestamp ≤ hi)))

/-- Embeds `MemStorage.deleteNotification`. -/
def deleteNotification (st : MemStorage) (id : Nat) : Bool × MemStorage :=
  let r := mapDel id st.notifications
  (r.1, { st with notifications := r.2 })

/-- Embeds `MemStorage.getNotificationTemplate`. -/
def getNotificationTemplate (st : MemStorage) (id : Nat) : Option NotificationTemplate :=
  mapGet id st.notificationTemplates

/-- Embeds `MemStorage.createNotificationTemplate` (with the creation clock value). -/
def createNotificationTemplate (st : MemStorage) (ins : InsertNotificationTemplate)
    (now : Nat) : NotificationTemplate × MemStorage :=
  let id := st.currentNotificationTemplateId
  let t : NotificationTemplate :=
    ⟨id, ins.name, ins.template, ins.description, ins.isDefault.getD 0, now⟩
  (t, { st with notificationTemplates := mapSet id t st.notificationTemplates,
                currentNotificationTemplateId := id + 1 })

/-- The spread `{ ...template, ...updates }`; `id` and `createdAt` are
omitted from the insert schema, so they are never overridden. -/
def mergeTemplate (t : NotificationTemplate) (u : TemplatePatch) : NotificationTemplate :=
  ⟨t.id, u.name.getD t.name, u.template.getD t.template,
   u.description.getD t.description, u.isDefault.getD t.isDefault, t.createdAt⟩

/-- Embeds `MemStorage.updateNotificationTemplate`. -/
def updateNotificationTemplate (st : MemStorage) (id : Nat) (u : TemplatePatch) :
    Option NotificationTemplate × MemStorage :=
  match mapGet id st.notificationTemplates with
  | none => (none, st)
  | some t =>
    let t' := mergeTemplate t u
    (some t', { st with notificationTemplates := mapSet id t' st.notificationTemplates })

/-- Embeds `MemStorage.deleteNotificationTemplate`. -/
def deleteNotificationTemplate (st : MemStorage) (id : Nat) : Bool × MemStorage :=
  let r := mapDel id st.notificationTemplates
  (r.1, { st with notificationTemplates := r.2 })

/-- JavaScript truthiness of the optional `templateId`: `data.templateId ?`
and `data.templateId || null` treat a present id `0` like an absent one. -/
def tidTruthy : Option Nat → Option Nat
  | some 0 => none
  | x => x

/-- The template resolved once before the loop:
`data.templateId ? await this.getNotificationTemplate(data.templateId) : null`. -/
def resolveTemplate (st : MemStorage) (tid : Option Nat) : Option NotificationTemplate :=
  match tidTruthy tid with
  | some t => getNotificationTemplate st t
  | none => none

/-- The product resolved for interpolation:
`data.productIds.length > 0 ? await this.getProduct(data.productIds[0]) : null`. -/
def firstProduct (st : MemStorage) (pids : List Nat) : Option Product :=
  match pids with
  | [] => none
  | q :: _ => getProduct st q

/-- The fixed fallback body. -/
def defaultMsg : String := "Default notification message"

/-- The notification body of one loop iteration: start from
`template?.template || "Default notification message"` (JavaScript `||`
falls through on an empty template text), then overwrite with the
interpolation when both a template and a product resolved. -/
def notifBodyOf (tmpl : Option NotificationTemplate) (pr : Option Product)
    (c : Customer) : String :=
  let b0 := match tmpl with
    | some tm => if tm.template = "" then defaultMsg else tm.template
    | none => defaultMsg
  match tmpl, pr with
  | some tm, some p => interpolate tm.template c p
  | _, _ => b0

/-- The `for (const customerId of data.customerIds)` loop of
`createNotifications`: skip unresolved customers, otherwise build and store
one notification snapshot, threading the store state. -/
def cnLoop (tmpl : Option NotificationTemplate) (tid : Option Nat) (pids : List Nat)
    (now : Nat) : MemStorage → List Nat → List Notification × MemStorage
  | st, [] => ([], st)
  | st, cid :: rest =>
    match getCustomer st cid with
    | none => cnLoop tmpl tid pids now st rest
    | some c =>
      let pr := firstProduct st pids
      let id := st.currentNotificationId
      let n : Notification :=
        ⟨id, c.id, c.email, c.name, c.phoneNumber, notifBodyOf tmpl pr c,
         tidTruthy tid, pids, now⟩
      let st' := { st with notifications := mapSet id n st.notifications,
                           currentNotificationId := id + 1 }
      let r := cnLoop tmpl tid pids now st' rest
      (n :: r.1, r.2)

/-- Embeds `MemStorage.createNotifications`: resolve the template once, then run the
per-customer loop; return the created notifications in order. -/
def createNotifications (st : MemStorage) (tid : Option Nat) (pids : List Nat)
    (cids : List Nat) (now : Nat) : List Notification × MemStorage :=
  cnLoop (resolveTemplate st tid) tid pids now st cids

/-- Route handler of `POST /api/customers` (with a schema-valid body): check
`getCustomerByEmail`; on a hit answer 400 without touching the store,
otherwise create and answer 201 with the new record. -/
def apiCreateCustomer (st : MemStorage) (ins : InsertCustomer) :
    (Nat × Option Customer) × MemStorage :=
  match getCustomerByEmail st ins.email with
  | some _ => ((400, none), st)
  | none =>
    let r := createCustomer st ins
    ((201, some r.1), r.2)

/-- Response of `POST /api/notifications`. -/
inductive NotifResp where
  | badRequest (msg : String)
  | created (ns : List Notification)
deriving DecidableEq

/-- HTTP status of a `POST /api/notifications` response. -/
def notifStatus : NotifResp → Nat
  | .badRequest _ => 400
  | .created _ => 201

/-- Route handler of `POST /api/notifications`.  `none` for a list models a
missing or non-array field.  Validation order matches the source: product
ids present and non-empty, customer ids present and non-empty, every product
id resolves, every customer id resolves, then — only when `templateId` is
truthy — the template resolves; finally delegate to `createNotifications`. -/
def apiCreateNotifs (st : MemStorage) (pidsOpt cidsOpt : Option (List Nat))
    (tid : Option Nat) (now : Nat) : NotifResp × MemStorage :=
  match pidsOpt with
  | none => (.badRequest "Product IDs are required", st)
  | some pids =>
    if pids = [] then (.badRequest "Product IDs are required", st)
    else match cidsOpt with
    | none => (.badRequest "Customer IDs are required", st)
    | some cids =>
      if cids = [] then (.badRequest "Customer IDs are required", st)
      else match pids.find? (fun q => (getProduct st q).isNone) with
      | some q => (.badRequest ("Product with ID " ++ toString q ++ " not found"), st)
      | none =>
        match cids.find? (fun cid => (getCustomer st cid).isNone) with
        | some cid => (.badRequest ("Customer with ID " ++ toString cid ++ " not found"), st)
        | none =>
          match tidTruthy tid with
          | some t =>
            if (getNotificationTemplate st t).isNone then
              (.badRequest ("Template with ID " ++ toString t ++ " not found"), st)
            else
              let r := createNotifications st tid pids cids now
              (.created r.1, r.2)
          | none =>
            let r := createNotifications st tid pids cids now
            (.created r.1, r.2)

/-- The empty store, before the constructor seeds the sample data. -/
def emptyState : MemStorage := ⟨[], [], [], [], 1, 1, 1, 1⟩

/-- The sample customers seeded by `initializeSampleData`. -/
def sampleCustomers : List InsertCustomer :=
  [⟨"John Smith", "john@example.com", "+1-555-0123"⟩,
   ⟨"Sarah Johnson", "sarah@example.com", "+1-555-0124"⟩,
   ⟨"Mike Wilson", "mike@example.com", "+44-20-7946-0958"⟩,
   ⟨"Emily Davis", "emily@example.com", "+33-1-42-86-83-26"⟩]

/-- The sample products seeded by `initializeSampleData`. -/
def sampleProducts : List InsertProduct :=
  [⟨"iPhone 15 Pro", some "Latest flagship smartphone with titanium design",
    some "https://apple.com/iphone-15-pro",
    some "https://store.storeimages.cdn-apple.com/4982/as-images.apple.com/is/iphone-15-pro-finish-select-202309-6-1inch-naturaltitanium.jpg",
    some 1⟩,
   ⟨"MacBook Air M2", some "Thin and light laptop with M2 chip",
    some "https://apple.com/macbook-air-m2",
    some "https://store.storeimages.cdn-apple.com/4982/as-images.apple.com/is/macbook-air-midnight-select-20220606.jpg",
    some 1⟩,
   ⟨"AirPods Pro", some "Wireless earbuds with noise cancellation",
    some "https://apple.com/airpods-pro",
    some "https://store.storeimages.cdn-apple.com/4982/as-images.apple.com/is/MQD83.jpg",
    some 1⟩,
   ⟨"iPad Pro", some "Professional tablet with M2 chip",
    some "https://apple.com/ipad-pro",
    some "https://store.storeimages.cdn-apple.com/4982/as-images.apple.com/is/ipad-pro-12-select-wifi-spacegray-202210.jpg",
    some 1⟩]

/-- The sample notification templates seeded by `initializeSampleData`. -/
def sampleTemplates : List InsertNotificationTemplate :=
  [⟨"Product Launch",
    "Hi \x7b\x7bcustomer.name\x7d\x7d, exciting news! We\x27ve just launched \x7b\x7bproduct.name\x7d\x7d - \x7b\x7bproduct.description\x7d\x7d. Check it out at \x7b\x7bproduct.storeLink\x7d\x7d!",
    some "Template for new product launches", some 1⟩,
   ⟨"Product Update",
    "Hello \x7b\x7bcustomer.name\x7d\x7d, we\x27ve updated \x7b\x7bproduct.name\x7d\x7d! Contact us at \x7b\x7bcustomer.phoneNumber\x7d\x7d if you have questions.",
    some "Template for product updates", some 0⟩,
   ⟨"Special Offer",
    "Dear \x7b\x7bcustomer.name\x7d\x7d, special offer on \x7b\x7bproduct.name\x7d\x7d! Visit \x7b\x7bproduct.storeLink\x7d\x7d to learn more.",
    some "Template for special offers and promotions", some 0⟩]

/-- The store state after the `MemStorage` constructor finished seeding the
sample data (template creation clock values taken as 0). -/
def initState : MemStorage :=
  let st1 := sampleCustomers.foldl (fun st ins => (createCustomer st ins).2) emptyState
  let st2 := sampleProducts.foldl (fun st ins => (createProduct st ins).2) st1
  sampleTemplates.foldl (fun st ins => (createNotificationTemplate st ins 0).2) st2

/-- One state transition of the API: each constructor is one mutating route
handler (with a schema-valid body).  Customer creation goes through the
route's duplicate-email check; the other creates and all updates/deletes
mutate the store exactly as their storage method does (their route-level
validation never mutates on failure). -/
inductive Step : MemStorage → MemStorage → Prop where
  | custCreate (st : MemStorage) (ins : InsertCustomer) :
      Step st (apiCreateCustomer st ins).2
  | custUpdate (st : MemStorage) (id : Nat) (u : CustomerPatch) :
      Step st (updateCustomer st id u).2
  | custDelete (st : MemStorage) (id : Nat) :
      Step st (deleteCustomer st id).2
  | prodCreate (st : MemStorage) (ins : InsertProduct) :
      Step st (createProduct st ins).2
  | prodUpdate (st : MemStorage) (id : Nat) (u : ProductPatch) :
      Step st (updateProduct st id u).2
  | prodDelete (st : MemStorage) (id : Nat) :
      Step st (deleteProduct st id).2
  | notifCreate (st : MemStorage) (tid : Option Nat) (pids cids : List Nat) (now : Nat) :
      Step st (createNotifications st tid pids cids now).2
  | notifDelete (st : MemStorage) (id : Nat) :
      Step st (deleteNotification st id).2
  | tmplCreate (st : MemStorage) (ins : InsertNotificationTemplate) (now : Nat) :
      Step st (createNotificationTemplate st ins now).2
  | tmplUpdate (st : MemStorage) (id : Nat) (u : TemplatePatch) :
      Step st (updateNotificationTemplate st id u).2
  | tmplDelete (st : MemStorage) (id : Nat) :
      Step st (deleteNotificationTemplate st id).2

/-- States reachable from the seeded initial state through the API. -/
inductive Reachable : MemStorage → Prop where
  | init : Reachable initState
  | step {st st' : MemStorage} : Reachable st → Step st st' → Reachable st'

/-- Well-formedness of one entity map with its id counter: keys are distinct,
below the counter, and each record's own id field equals its key. -/
def mapInv (idOf : α → Nat) (bound : Nat) (m : List (Nat × α)) : Prop :=
  (m.map Prod.fst).Nodup ∧ ∀ p ∈ m, p.1 < bound ∧ idOf p.2 = p.1

instance (idOf : α → Nat) (bound : Nat) (m : List (Nat × α)) :
    Decidable (mapInv idOf bound m) :=
  inferInstanceAs (Decidable (_ ∧ _))

/-- Well-formedness of the whole store. -/
def StoreInv (st : MemStorage) : Prop :=
  mapInv Customer.id st.currentCustomerId st.customers ∧
  mapInv Product.id st.currentProductId st.products ∧
  mapInv Notification.id st.currentNotificationId st.notifications ∧
  mapInv NotificationTemplate.id st.currentNotificationTemplateId st.notificationTemplates

instance (st : MemStorage) : Decidable (StoreInv st) :=
  inferInstanceAs (Decidable (_ ∧ _))

/-- No two stored customers share an email. -/
def emailsUnique (st : MemStorage) : Prop :=
  st.customers.Pairwise (fun a b => a.2.email ≠ b.2.email)

instance (st : MemStorage) : Decidable (emailsUnique st) :=
  inferInstanceAs (Decidable (List.Pairwise _ _))

/-- Largest key present in a map (0 when empty). -/
def maxKey (m : List (Nat × α)) : Nat :=
  m.foldl (fun acc p => max acc p.1) 0

/-- A store with one customer and one stored template whose template text is
the empty string (the API accepts an empty `template` field: the insert
schema only requires a string). -/
def c3State : MemStorage :=
  ⟨[(1, ⟨1, "Ann", "ann@example.com", "+1-2"⟩)], [], [],
   [(1, ⟨1, "Empty", "", none, 0, 0⟩)], 2, 1, 1, 2⟩

theorem mapGet_set_self (k : Nat) (v : α) (m : List (Nat × α)) :
    mapGet k (mapSet k v m) = some v := by
  induction m with
  | nil => simp [mapSet, mapGet]
  | cons p rest ih =>
    obtain ⟨k', v'⟩ := p
    by_cases h : k' = k
    · subst h; simp [mapSet, mapGet]
    · simp [mapSet, mapGet, h, ih]

theorem mapGet_eq_none_iff (k : Nat) (m : List (Nat × α)) :
    mapGet k m = none ↔ k ∉ m.map Prod.fst := by
  induction m with
  | nil => simp [mapGet]
  | cons p rest ih =>
    obtain ⟨k', v'⟩ := p
    by_cases h : k' = k
    · subst h; simp [mapGet]
    · simp [mapGet, h, ih, Ne.symm h]

theorem mapGet_mem {k : Nat} {v : α} {m : List (Nat × α)} (h : mapGet k m = some v) :
    (k, v) ∈ m := by
  induction m with
  | nil => simp [mapGet] at h
  | cons p rest ih =>
    obtain ⟨k', v'⟩ := p
    by_cases hk : k' = k
    · subst hk
      simp [mapGet] at h
      simp [h]
    · simp [mapGet, hk] at h
      exact List.mem_cons_of_mem _ (ih h)

theorem mapDel_of_get_none {k : Nat} {m : List (Nat × α)} (h : mapGet k m = none) :
    mapDel k m = (false, m) := by
  induction m with
  | nil => rfl
  | cons p rest ih =>
    obtain ⟨k', v'⟩ := p
    by_cases hk : k' = k
    · subst hk; simp [mapGet] at h
    · simp [mapGet, hk] at h
      simp [mapDel, hk, ih h]

theorem mapDel_fst_of_get_some {k : Nat} {v : α} {m : List (Nat × α)}
    (h : mapGet k m = some v) : (mapDel k m).1 = true := by
  induction m with
  | nil => simp [mapGet] at h
  | cons p rest ih =>
    obtain ⟨k', v'⟩ := p
    by_cases hk : k' = k
    · subst hk; simp [mapDel]
    · simp [mapGet, hk] at h
      simp [mapDel, hk, ih h]

theorem mapDel_sublist (k : Nat) (m : List (Nat × α)) : (mapDel k m).2.Sublist m := by
  induction m with
  | nil => simp [mapDel]
  | cons p rest ih =>
    obtain ⟨k', v'⟩ := p
    by_cases hk : k' = k
    · simp only [mapDel, hk, if_pos]
      exact (List.sublist_cons_self _ _)
    · simp only [mapDel, hk, if_neg, not_false_iff]
      exact List.Sublist.cons₂ _ ih

theorem mapGet_del_self {k : Nat} {m : List (Nat × α)}
    (hnd : (m.map Prod.fst).Nodup) : mapGet k (mapDel k m).2 = none := by
  induction m with
  | nil => simp [mapDel, mapGet]
  | cons p rest ih =>
    obtain ⟨k', v'⟩ := p
    simp only [List.map_cons, List.nodup_cons] at hnd
    by_cases hk : k' = k
    · subst hk
      simp only [mapDel, if_pos rfl]
      exact (mapGet_eq_none_iff _ _).2 hnd.1
    · simp [mapDel, mapGet, hk, ih hnd.2]

theorem mapGet_del_ne {k k' : Nat} (h : k ≠ k') (m : List (Nat × α)) :
    mapGet k' (mapDel k m).2 = mapGet k' m := by
  induction m with
  | nil => rfl
  | cons p rest ih =>
    obtain ⟨k0, v0⟩ := p
    by_cases hk : k0 = k
    · subst hk
      simp [mapDel, mapGet, h]
    · simp [mapDel, mapGet, hk, ih]

theorem mapSet_fresh {k : Nat} {v : α} {m : List (Nat × α)}
    (h : ∀ p ∈ m, p.1 ≠ k) : mapSet k v m = m ++ [(k, v)] := by
  induction m with
  | nil => rfl
  | cons p rest ih =>
    obtain ⟨k', v'⟩ := p
    have hk : k' ≠ k := h (k', v') (List.mem_cons_self _ _)
    simp only [mapSet, if_neg hk, List.cons_append]
    rw [ih (fun q hq => h q (List.mem_cons_of_mem _ hq))]

theorem keys_mapSet_of_mem {k : Nat} {v : α} {m : List (Nat × α)}
    (h : k ∈ m.map Prod.fst) : (mapSet k v m).map Prod.fst = m.map Prod.fst := by
  induction m with
  | nil => simp at h
  | cons p rest ih =>
    obtain ⟨k', v'⟩ := p
    by_cases hk : k' = k
    · subst hk; simp [mapSet]
    · simp only [List.map_cons, List.mem_cons] at h
      rcases h with h | h
      · exact absurd h.symm hk
      · simp [mapSet, hk, ih h]

theorem mem_mapSet {k : Nat} {v : α} {m : List (Nat × α)} {p : Nat × α}
    (h : p ∈ mapSet k v m) : p = (k, v) ∨ p ∈ m := by
  induction m with
  | nil => simp [mapSet] at h; simp [h]
  | cons q rest ih =>
    obtain ⟨k', v'⟩ := q
    by_cases hk : k' = k
    · simp only [mapSet] at h
      rw [if_pos hk] at h
      rcases List.mem_cons.1 h with h1 | h1
      · exact Or.inl h1
      · exact Or.inr (List.mem_cons_of_mem _ h1)
    · simp only [mapSet] at h
      rw [if_neg hk] at h
      rcases List.mem_cons.1 h with h1 | h1
      · exact Or.inr (by simp [h1])
      · rcases ih h1 with h2 | h2
        · exact Or.inl h2
        · exact Or.inr (List.mem_cons_of_mem _ h2)

theorem mapInv_mono {idOf : α → Nat} {b b' : Nat} {m : List (Nat × α)}
    (h : mapInv idOf b m) (hb : b ≤ b') : mapInv idOf b' m :=
  ⟨h.1, fun p hp => ⟨Nat.lt_of_lt_of_le (h.2 p hp).1 hb, (h.2 p hp).2⟩⟩

theorem mapInv_insert_at_bound {idOf : α → Nat} {b : Nat} {m : List (Nat × α)} {v : α}
    (h : mapInv idOf b m) (hv : idOf v = b) : mapInv idOf (b + 1) (mapSet b v m) := by
  have fresh : ∀ p ∈ m, p.1 ≠ b := fun p hp => Nat.ne_of_lt (h.2 p hp).1
  rw [mapSet_fresh fresh]
  constructor
  · rw [List.map_append]
    refine List.Nodup.append h.1 (List.nodup_singleton b) ?_
    intro a ha hb'
    simp only [List.map_cons, List.map_nil, List.mem_singleton] at hb'
    subst hb'
    rcases List.mem_map.1 ha with ⟨p, hp, hpa⟩
    exact fresh p hp hpa
  · intro p hp
    rcases List.mem_append.1 hp with hp | hp
    · exact ⟨Nat.lt_succ_of_lt (h.2 p hp).1, (h.2 p hp).2⟩
    · simp only [List.mem_singleton] at hp
      subst hp
      exact ⟨Nat.lt_succ_self b, hv⟩

theorem mapInv_set_existing {idOf : α → Nat} {b k : Nat} {m : List (Nat × α)} {v w : α}
    (h : mapInv idOf b m) (hget : mapGet k m = some w) (hv : idOf v = k) :
    mapInv idOf b (mapSet k v m) := by
  have hkmem : k ∈ m.map Prod.fst :=
    List.mem_map.2 ⟨(k, w), mapGet_mem hget, rfl⟩
  have hklt : k < b := (h.2 (k, w) (mapGet_mem hget)).1
  constructor
  · rw [keys_mapSet_of_mem hkmem]; exact h.1
  · intro p hp
    rcases mem_mapSet hp with hp | hp
    · subst hp; exact ⟨hklt, hv⟩
    · exact h.2 p hp

theorem mapInv_del {idOf : α → Nat} {b k : Nat} {m : List (Nat × α)}
    (h : mapInv idOf b m) : mapInv idOf b (mapDel k m).2 := by
  constructor
  · exact h.1.sublist ((mapDel_sublist k m).map Prod.fst)
  · intro p hp
    exact h.2 p ((mapDel_sublist k m).subset hp)

theorem stripTok_length {pat s rest : List Char} (h : stripTok pat s = some rest) :
    s.length = pat.length + rest.length := by
  induction pat generalizing s with
  | nil =>
    simp only [stripTok, Option.some.injEq] at h
    subst h; simp
  | cons p ps ih =>
    cases s with
    | nil => simp [stripTok] at h
    | cons c cs =>
      simp only [stripTok] at h
      by_cases hpc : p = c
      · rw [if_pos hpc] at h
        have := ih h
        simp [this]; omega
      · rw [if_neg hpc] at h; exact absurd h (by simp)

theorem replaceAllF_nil (n : Nat) (pat repl pre : List Char) :
    replaceAllF n pat repl pre [] = [] := by
  cases n <;> rfl

theorem replaceAllF_fuel {pat : List Char} (hp : pat ≠ []) (repl : List Char) :
    ∀ n m pre s, s.length ≤ n → s.length ≤ m →
      replaceAllF n pat repl pre s = replaceAllF m pat repl pre s := by
  intro n
  induction n with
  | zero =>
    intro m pre s hn _
    have : s = [] := List.eq_nil_of_length_eq_zero (Nat.le_zero.1 hn)
    subst this
    rw [replaceAllF_nil, replaceAllF_nil]
  | succ n ih =>
    intro m pre s hn hm
    cases s with
    | nil => rw [replaceAllF_nil, replaceAllF_nil]
    | cons c cs =>
      simp only [List.length_cons] at hn hm
      cases m with
      | zero => omega
      | succ m' =>
        cases hst : stripTok pat (c :: cs) with
        | none =>
          simp only [replaceAllF, hst]
          rw [ih m' (pre ++ [c]) cs (by omega) (by omega)]
        | some rest =>
          have hlen : rest.length ≤ cs.length := by
            have h1 := stripTok_length hst
            have h2 : 0 < pat.length := List.length_pos.2 hp
            simp only [List.length_cons] at h1
            omega
          simp only [replaceAllF, hst]
          rw [ih m' (pre ++ pat) rest (by omega) (by omega)]

theorem expandRepl_of_no_dollar {repl : List Char} (matched pre suf : List Char)
    (h : '$' ∉ repl) : expandRepl matched pre suf repl = repl := by
  unfold expandRepl
  induction repl with
  | nil => rfl
  | cons c rest ih =>
    have hc : ¬ c = '$' := by
      intro he; subst he; exact h (List.mem_cons_self _ _)
    have hrest : '$' ∉ rest := fun hm => h (List.mem_cons_of_mem _ hm)
    simp only [expandReplAux, if_neg hc]
    rw [ih hrest]

theorem replaceAllF_pre_irrelevant {pat repl : List Char} (hd : '$' ∉ repl) :
    ∀ (n : Nat) (pre pre' s : List Char),
      replaceAllF n pat repl pre s = replaceAllF n pat repl pre' s := by
  intro n
  induction n with
  | zero => intro pre pre' s; rfl
  | succ n ih =>
    intro pre pre' s
    cases s with
    | nil => rfl
    | cons c cs =>
      cases hst : stripTok pat (c :: cs) with
      | none =>
        simp only [replaceAllF, hst]
        rw [ih (pre ++ [c]) (pre' ++ [c]) cs]
      | some rest =>
        simp only [replaceAllF, hst]
        rw [expandRepl_of_no_dollar _ _ _ hd, expandRepl_of_no_dollar _ _ _ hd,
            ih (pre ++ pat) (pre' ++ pat) rest]

theorem replaceAll_nil (pat repl : List Char) : replaceAll pat repl [] = [] := by
  by_cases h : pat = [] <;> simp [replaceAll, h, replaceAllF_nil]

theorem replaceAll_cons_of_none {pat repl : List Char} {c : Char} {cs : List Char}
    (hd : '$' ∉ repl) (h : stripTok pat (c :: cs) = none) :
    replaceAll pat repl (c :: cs) = c :: replaceAll pat repl cs := by
  have hp : pat ≠ [] := by
    intro he; subst he; simp [stripTok] at h
  simp only [replaceAll, if_neg hp, List.length_cons]
  simp only [replaceAllF, h]
  rw [replaceAllF_pre_irrelevant hd cs.length ([] ++ [c]) [] cs]

theorem replaceAll_of_strip {pat repl s rest : List Char} (hd : '$' ∉ repl)
    (hp : pat ≠ []) (h : stripTok pat s = some rest) :
    replaceAll pat repl s = repl ++ replaceAll pat repl rest := by
  cases s with
  | nil =>
    cases pat with
    | nil => exact absurd rfl hp
    | cons p ps => simp [stripTok] at h
  | cons c cs =>
    have hlen : rest.length ≤ cs.length := by
      have h1 := stripTok_length h
      have h2 : 0 < pat.length := List.length_pos.2 hp
      simp only [List.length_cons] at h1
      omega
    simp only [replaceAll, if_neg hp, List.length_cons]
    simp only [replaceAllF, h]
    rw [expandRepl_of_no_dollar _ _ _ hd]
    congr 1
    rw [replaceAllF_pre_irrelevant hd cs.length ([] ++ pat) [] rest]
    exact replaceAllF_fuel hp repl cs.length rest.length [] rest hlen (Nat.le_refl _)

theorem replaceAllF_id_of_not_occurs {pat repl : List Char} :
    ∀ (s : List Char) (n : Nat) (pre : List Char), s.length ≤ n →
      occursIn pat s = false → replaceAllF n pat repl pre s = s := by
  intro s
  induction s with
  | nil => intro n pre _ _; exact replaceAllF_nil n pat repl pre
  | cons c cs ih =>
    intro n pre hn h
    simp only [occursIn, Bool.or_eq_false_iff] at h
    have hnone : stripTok pat (c :: cs) = none :=
      Option.not_isSome_iff_eq_none.1 (by simp [h.1])
    cases n with
    | zero => simp at hn
    | succ n' =>
      simp only [List.length_cons] at hn
      simp only [replaceAllF, hnone]
      rw [ih n' (pre ++ [c]) (by omega) h.2]

theorem replaceAll_of_not_occurs {pat repl s : List Char}
    (h : occursIn pat s = false) : replaceAll pat repl s = s := by
  have hp : pat ≠ [] := by
    intro he; subst he
    cases s <;> simp [occursIn, stripTok] at h
  simp only [replaceAll, if_neg hp]
  exact replaceAllF_id_of_not_occurs s s.length [] (Nat.le_refl _) h

theorem replaceString_of_not_occurs {pat repl s : String}
    (h : occursIn pat.data s.data = false) : replaceString pat repl s = s := by
  show String.mk (replaceAll pat.data repl.data s.data) = s
  rw [replaceAll_of_not_occurs h]

theorem cnLoop_components (tmpl : Option NotificationTemplate) (tid : Option Nat)
    (pids : List Nat) (now : Nat) :
    ∀ (cids : List Nat) (st : MemStorage),
      (cnLoop tmpl tid pids now st cids).2.customers = st.customers ∧
      (cnLoop tmpl tid pids now st cids).2.products = st.products ∧
      (cnLoop tmpl tid pids now st cids).2.notificationTemplates = st.notificationTemplates ∧
      (cnLoop tmpl tid pids now st cids).2.currentCustomerId = st.currentCustomerId ∧
      (cnLoop tmpl tid pids now st cids).2.currentProductId = st.currentProductId ∧
      (cnLoop tmpl tid pids now st cids).2.currentNotificationTemplateId
        = st.currentNotificationTemplateId := by
  intro cids
  induction cids with
  | nil => intro st; exact ⟨rfl, rfl, rfl, rfl, rfl, rfl⟩
  | cons cid rest ih =>
    intro st
    cases hc : getCustomer st cid with
    | none => simpa only [cnLoop, hc] using ih st
    | some c => simpa only [cnLoop, hc] using ih _

theorem cnLoop_customerIds (tmpl : Option NotificationTemplate) (tid : Option Nat)
    (pids : List Nat) (now : Nat) :
    ∀ (cids : List Nat) (st : MemStorage),
      (cnLoop tmpl tid pids now st cids).1.map (·.customerId)
        = cids.filterMap (fun cid => (mapGet cid st.customers).map (·.id)) := by
  intro cids
  induction cids with
  | nil => intro st; rfl
  | cons cid rest ih =>
    intro st
    cases hc : getCustomer st cid with
    | none =>
      have hc' : mapGet cid st.customers = none := hc
      simp only [cnLoop, hc, List.filterMap_cons, hc', Option.map_none']
      exact ih st
    | some c =>
      have hc' : mapGet cid st.customers = some c := hc
      simp only [cnLoop, hc, List.filterMap_cons, hc', Option.map_some', List.map_cons]
      exact congrArg (c.id :: ·) (ih _)

theorem cnLoop_mem (tmpl : Option NotificationTemplate) (tid : Option Nat)
    (pids : List Nat) (now : Nat) :
    ∀ (cids : List Nat) (st : MemStorage), ∀ n ∈ (cnLoop tmpl tid pids now st cids).1,
      n.productIds = pids ∧ n.templateId = tidTruthy tid ∧ n.timestamp = now ∧
      n.notificationBody = notifBodyOf tmpl (firstProduct st pids)
        ⟨n.customerId, n.customerName, n.customerEmail, n.customerPhone⟩ := by
  intro cids
  induction cids with
  | nil => intro st n hn; simp [cnLoop] at hn
  | cons cid rest ih =>
    intro st n hn
    cases hc : getCustomer st cid with
    | none =>
      simp only [cnLoop, hc] at hn
      exact ih st n hn
    | some c =>
      simp only [cnLoop, hc, List.mem_cons] at hn
      rcases hn with hn | hn
      · subst hn
        exact ⟨rfl, rfl, rfl, rfl⟩
      · have h2 := ih _ n hn
        exact h2

theorem cnLoop_notifInv (tmpl : Option NotificationTemplate) (tid : Option Nat)
    (pids : List Nat) (now : Nat) :
    ∀ (cids : List Nat) (st : MemStorage),
      mapInv Notification.id st.currentNotificationId st.notifications →
      mapInv Notification.id (cnLoop tmpl tid pids now st cids).2.currentNotificationId
        (cnLoop tmpl tid pids now st cids).2.notifications := by
  intro cids
  induction cids with
  | nil => intro st h; exact h
  | cons cid rest ih =>
    intro st h
    cases hc : getCustomer st cid with
    | none => simpa only [cnLoop, hc] using ih st h
    | some c =>
      simp only [cnLoop, hc]
      exact ih _ (mapInv_insert_at_bound h rfl)

theorem pairwise_emails_mapSet {m : List (Nat × Customer)} {k : Nat} {c : Customer}
    (hall : ∀ p ∈ m, p.2.email ≠ c.email)
    (h : m.Pairwise (fun a b => a.2.email ≠ b.2.email)) :
    (mapSet k c m).Pairwise (fun a b => a.2.email ≠ b.2.email) := by
  induction m with
  | nil => simp [mapSet]
  | cons q rest ih =>
    obtain ⟨k', v'⟩ := q
    rcases List.pairwise_cons.1 h with ⟨hhead, htail⟩
    by_cases hk : k' = k
    · simp only [mapSet, if_pos hk]
      refine List.pairwise_cons.2 ⟨?_, htail⟩
      intro b hb
      exact fun he => hall b (List.mem_cons_of_mem _ hb) he.symm
    · simp only [mapSet, if_neg hk]
      refine List.pairwise_cons.2
        ⟨?_, ih (fun p hp => hall p (List.mem_cons_of_mem _ hp)) htail⟩
      intro b hb
      rcases mem_mapSet hb with hb | hb
      · subst hb
        exact hall (k', v') (List.mem_cons_self _ _)
      · exact hhead b hb

theorem getCustomerByEmail_none_forall {st : MemStorage} {e : String}
    (h : getCustomerByEmail st e = none) : ∀ p ∈ st.customers, p.2.email ≠ e := by
  intro p hp
  have hmem : p.2 ∈ st.customers.map (·.2) := List.mem_map.2 ⟨p, hp, rfl⟩
  have := List.find?_eq_none.1 h p.2 hmem
  simpa using this

theorem cnLoop_counter_mono (tmpl : Option NotificationTemplate) (tid : Option Nat)
    (pids : List Nat) (now : Nat) :
    ∀ (cids : List Nat) (st : MemStorage),
      st.currentNotificationId ≤ (cnLoop tmpl tid pids now st cids).2.currentNotificationId := by
  intro cids
  induction cids with
  | nil => intro st; exact Nat.le_refl _
  | cons cid rest ih =>
    intro st
    cases hc : getCustomer st cid with
    | none => simpa only [cnLoop, hc] using ih st
    | some c =>
      simp only [cnLoop, hc]
      have h2 := ih { st with
        notifications := mapSet st.currentNotificationId
          ⟨st.currentNotificationId, c.id, c.email, c.name, c.phoneNumber,
           notifBodyOf tmpl (firstProduct st pids) c, tidTruthy tid, pids, now⟩
          st.notifications,
        currentNotificationId := st.currentNotificationId + 1 }
      exact Nat.le_trans (Nat.le_succ _) h2

theorem step_storeInv {st st' : MemStorage} (h : Step st st') (hi : StoreInv st) :
    StoreInv st' := by
  cases h with
  | custCreate ins =>
    cases hE : getCustomerByEmail st ins.email with
    | some c => simpa [apiCreateCustomer, hE] using hi
    | none =>
      simp only [apiCreateCustomer, hE, createCustomer]
      exact ⟨mapInv_insert_at_bound hi.1 rfl, hi.2.1, hi.2.2.1, hi.2.2.2⟩
  | custUpdate id u =>
    cases hg : mapGet id st.customers with
    | none => simpa [updateCustomer, hg] using hi
    | some c =>
      simp only [updateCustomer, hg]
      exact ⟨mapInv_set_existing hi.1 hg (hi.1.2 (id, c) (mapGet_mem hg)).2,
             hi.2.1, hi.2.2.1, hi.2.2.2⟩
  | custDelete id =>
    simp only [deleteCustomer]
    exact ⟨mapInv_del hi.1, hi.2.1, hi.2.2.1, hi.2.2.2⟩
  | prodCreate ins =>
    simp only [createProduct]
    exact ⟨hi.1, mapInv_insert_at_bound hi.2.1 rfl, hi.2.2.1, hi.2.2.2⟩
  | prodUpdate id u =>
    cases hg : mapGet id st.products with
    | none => simpa [updateProduct, hg] using hi
    | some p =>
      simp only [updateProduct, hg]
      exact ⟨hi.1, mapInv_set_existing hi.2.1 hg (hi.2.1.2 (id, p) (mapGet_mem hg)).2,
             hi.2.2.1, hi.2.2.2⟩
  | prodDelete id =>
    simp only [deleteProduct]
    exact ⟨hi.1, mapInv_del hi.2.1, hi.2.2.1, hi.2.2.2⟩
  | notifCreate tid pids cids now =>
    have hcomp := cnLoop_components (resolveTemplate st tid) tid pids now cids st
    have hn := cnLoop_notifInv (resolveTemplate st tid) tid pids now cids st hi.2.2.1
    refine ⟨?_, ?_, hn, ?_⟩
    · rw [show (createNotifications st tid pids cids now).2.customers = st.customers
            from hcomp.1,
          show (createNotifications st tid pids cids now).2.currentCustomerId
            = st.currentCustomerId from hcomp.2.2.2.1]
      exact hi.1
    · rw [show (createNotifications st tid pids cids now).2.products = st.products
            from hcomp.2.1,
          show (createNotifications st tid pids cids now).2.currentProductId
            = st.currentProductId from hcomp.2.2.2.2.1]
      exact hi.2.1
    · rw [show (createNotifications st tid pids cids now).2.notificationTemplates
            = st.notificationTemplates from hcomp.2.2.1,
          show (createNotifications st tid pids cids now).2.currentNotificationTemplateId
            = st.currentNotificationTemplateId from hcomp.2.2.2.2.2]
      exact hi.2.2.2
  | notifDelete id =>
    simp only [deleteNotification]
    exact ⟨hi.1, hi.2.1, mapInv_del hi.2.2.1, hi.2.2.2⟩
  | tmplCreate ins now =>
    simp only [createNotificationTemplate]
    exact ⟨hi.1, hi.2.1, hi.2.2.1, mapInv_insert_at_bound hi.2.2.2 rfl⟩
  | tmplUpdate id u =>
    cases hg : mapGet id st.notificationTemplates with
    | none => simpa [updateNotificationTemplate, hg] using hi
    | some t =>
      simp only [updateNotificationTemplate, hg]
      exact ⟨hi.1, hi.2.1, hi.2.2.1,
             mapInv_set_existing hi.2.2.2 hg (hi.2.2.2.2 (id, t) (mapGet_mem hg)).2⟩
  | tmplDelete id =>
    simp only [deleteNotificationTemplate]
    exact ⟨hi.1, hi.2.1, hi.2.2.1, mapInv_del hi.2.2.2⟩

theorem storeInv_init : StoreInv initState := by decide

theorem reachable_storeInv {st : MemStorage} (h : Reachable st) : StoreInv st := by
  induction h with
  | init => exact storeInv_init
  | step _ hs ih => exact step_storeInv hs ih

theorem step_counters_mono {st st' : MemStorage} (h : Step st st') :
    st.currentCustomerId ≤ st'.currentCustomerId ∧
    st.currentProductId ≤ st'.currentProductId ∧
    st.currentNotificationId ≤ st'.currentNotificationId ∧
    st.currentNotificationTemplateId ≤ st'.currentNotificationTemplateId := by
  cases h with
  | custCreate ins =>
    cases hE : getCustomerByEmail st ins.email with
    | some c => simp [apiCreateCustomer, hE]
    | none => simp [apiCreateCustomer, hE, createCustomer, Nat.le_succ]
  | custUpdate id u =>
    cases hg : mapGet id st.customers with
    | none => simp [updateCustomer, hg]
    | some c => simp [updateCustomer, hg]
  | custDelete id => simp [deleteCustomer]
  | prodCreate ins => simp [createProduct, Nat.le_succ]
  | prodUpdate id u =>
    cases hg : mapGet id st.products with
    | none => simp [updateProduct, hg]
    | some p => simp [updateProduct, hg]
  | prodDelete id => simp [deleteProduct]
  | notifCreate tid pids cids now =>
    have hcomp := cnLoop_components (resolveTemplate st tid) tid pids now cids st
    have hmono := cnLoop_counter_mono (resolveTemplate st tid) tid pids now cids st
    exact ⟨Nat.le_of_eq hcomp.2.2.2.1.symm, Nat.le_of_eq hcomp.2.2.2.2.1.symm,
           hmono, Nat.le_of_eq hcomp.2.2.2.2.2.symm⟩
  | notifDelete id => simp [deleteNotification]
  | tmplCreate ins now => simp [createNotificationTemplate, Nat.le_succ]
  | tmplUpdate id u =>
    cases hg : mapGet id st.notificationTemplates with
    | none => simp [updateNotificationTemplate, hg]
    | some t => simp [updateNotificationTemplate, hg]
  | tmplDelete id => simp [deleteNotificationTemplate]

/-- C1: every `createNotifications` call yields exactly one notification per
customer identifier that resolves to a stored customer, in the order the
identifiers were supplied (unresolved identifiers are skipped silently, no
error), and every created notification carries the full supplied
product-identifier list. -/
theorem c1_one_notification_per_resolved_customer (st : MemStorage) (tid : Option Nat)
    (pids cids : List Nat) (now : Nat) :
    (createNotifications st tid pids cids now).1.map (·.customerId)
      = cids.filterMap (fun cid => (getCustomer st cid).map (·.id)) ∧
    ∀ n ∈ (createNotifications st tid pids cids now).1, n.productIds = pids := by
  constructor
  · exact cnLoop_customerIds (resolveTemplate st tid) tid pids now cids st
  · intro n hn
    exact (cnLoop_mem (resolveTemplate st tid) tid pids now cids st n hn).1

/-- Witness for C1 at the spec's own example: product ids `[1]`, customer ids
`[1, 2, 999]` on the seeded store (customer 999 does not exist) create exactly
the notifications for customers 1 and 2, and the first one carries `[1]`. -/
theorem c1_one_notification_per_resolved_customer_witness :
    (createNotifications initState none [1] [1, 2, 999] 5).1.map (·.customerId)
      = [1, 2] ∧
    (Notification.mk 1 1 "john@example.com" "John Smith" "+1-555-0123"
        "Default notification message" none [1] 5).productIds = [1] := by
  constructor
  · rw [(c1_one_notification_per_resolved_customer initState none [1] [1, 2, 999] 5).1]
    decide
  · exact (c1_one_notification_per_resolved_customer initState none [1] [1, 2, 999] 5).2
      (Notification.mk 1 1 "john@example.com" "John Smith" "+1-555-0123"
        "Default notification message" none [1] 5) (by decide)

/-- C5: creating a customer through the API with an email equal to an existing
customer's email answers status 400 with no payload, and the whole store is
returned unchanged (same count, same records). -/
theorem c5_duplicate_email_conflict (st : MemStorage) (ins : InsertCustomer)
    (c0 : Customer) (h : getCustomerByEmail st ins.email = some c0) :
    apiCreateCustomer st ins = ((400, none), st) := by
  simp [apiCreateCustomer, h]

/-- Witness for C5: re-creating the seeded email john@example.com is rejected
with 400 and the seeded store is unchanged. -/
theorem c5_duplicate_email_conflict_witness :
    apiCreateCustomer initState ⟨"Dup", "john@example.com", "+1-000"⟩
      = ((400, none), initState) :=
  c5_duplicate_email_conflict initState ⟨"Dup", "john@example.com", "+1-000"⟩
    ⟨1, "John Smith", "john@example.com", "+1-555-0123"⟩ (by decide)

/-- C4 counterexample: the claimed invariant "no two stored customers share an
email in every API-reachable state" is false: one `PUT /api/customers/2`
setting Sarah's email to John's reaches a state with a duplicate email (the
update route performs no uniqueness check). -/
theorem c4_counterexample :
    Reachable (updateCustomer initState 2 ⟨none, some "john@example.com", none⟩).2 ∧
    ¬ emailsUnique (updateCustomer initState 2 ⟨none, some "john@example.com", none⟩).2 :=
  ⟨Reachable.step Reachable.init
     (Step.custUpdate initState 2 ⟨none, some "john@example.com", none⟩),
   by decide⟩

/-- C4 amended: email uniqueness is enforced at creation only — API customer
creation and deletion preserve it, while update performs no check (see the
counterexample). -/
theorem c4_email_uniqueness_amended :
    (∀ (st : MemStorage) (ins : InsertCustomer),
       emailsUnique st → emailsUnique (apiCreateCustomer st ins).2) ∧
    (∀ (st : MemStorage) (id : Nat),
       emailsUnique st → emailsUnique (deleteCustomer st id).2) := by
  constructor
  · intro st ins h
    cases hE : getCustomerByEmail st ins.email with
    | some c => simpa [apiCreateCustomer, hE] using h
    | none =>
      simp only [apiCreateCustomer, hE, createCustomer]
      exact pairwise_emails_mapSet (getCustomerByEmail_none_forall hE) h
  · intro st id h
    exact List.Pairwise.sublist (mapDel_sublist id st.customers) h

/-- Witness for C4's amended claim: creating a fresh-email customer on the
seeded store keeps emails unique. -/
theorem c4_email_uniqueness_amended_witness :
    emailsUnique (apiCreateCustomer initState ⟨"New", "new@example.com", "+1-1"⟩).2 :=
  c4_email_uniqueness_amended.1 initState ⟨"New", "new@example.com", "+1-1"⟩ (by decide)

/-- C9: for each of the four entity kinds, in any API-reachable store state,
delete of an absent identifier answers `false` and leaves the store entirely
unchanged, while delete of a present identifier answers `true`, removes that
record, and leaves every other identifier's record unchanged. -/
theorem c9_delete_semantics (st : MemStorage) (hr : Reachable st) (id : Nat) :
    ((getCustomer st id = none → deleteCustomer st id = (false, st)) ∧
     (∀ c, getCustomer st id = some c →
        (deleteCustomer st id).1 = true ∧
        getCustomer (deleteCustomer st id).2 id = none ∧
        ∀ k, k ≠ id → getCustomer (deleteCustomer st id).2 k = getCustomer st k)) ∧
    ((getProduct st id = none → deleteProduct st id = (false, st)) ∧
     (∀ p, getProduct st id = some p →
        (deleteProduct st id).1 = true ∧
        getProduct (deleteProduct st id).2 id = none ∧
        ∀ k, k ≠ id → getProduct (deleteProduct st id).2 k = getProduct st k)) ∧
    ((getNotification st id = none → deleteNotification st id = (false, st)) ∧
     (∀ n, getNotification st id = some n →
        (deleteNotification st id).1 = true ∧
        getNotification (deleteNotification st id).2 id = none ∧
        ∀ k, k ≠ id → getNotification (deleteNotification st id).2 k = getNotification st k)) ∧
    ((getNotificationTemplate st id = none → deleteNotificationTemplate st id = (false, st)) ∧
     (∀ t, getNotificationTemplate st id = some t →
        (deleteNotificationTemplate st id).1 = true ∧
        getNotificationTemplate (deleteNotificationTemplate st id).2 id = none ∧
        ∀ k, k ≠ id →
          getNotificationTemplate (deleteNotificationTemplate st id).2 k
            = getNotificationTemplate st k)) := by
  have hinv := reachable_storeInv hr
  refine ⟨⟨?_, ?_⟩, ⟨?_, ?_⟩, ⟨?_, ?_⟩, ⟨?_, ?_⟩⟩
  · intro h
    simp [deleteCustomer, mapDel_of_get_none h]
  · intro c hc
    exact ⟨mapDel_fst_of_get_some hc, mapGet_del_self hinv.1.1,
           fun k hk => mapGet_del_ne (Ne.symm hk) st.customers⟩
  · intro h
    simp [deleteProduct, mapDel_of_get_none h]
  · intro p hp
    exact ⟨mapDel_fst_of_get_some hp, mapGet_del_self hinv.2.1.1,
           fun k hk => mapGet_del_ne (Ne.symm hk) st.products⟩
  · intro h
    simp [deleteNotification, mapDel_of_get_none h]
  · intro n hn
    exact ⟨mapDel_fst_of_get_some hn, mapGet_del_self hinv.2.2.1.1,
           fun k hk => mapGet_del_ne (Ne.symm hk) st.notifications⟩
  · intro h
    simp [deleteNotificationTemplate, mapDel_of_get_none h]
  · intro t ht
    exact ⟨mapDel_fst_of_get_some ht, mapGet_del_self hinv.2.2.2.1,
           fun k hk => mapGet_del_ne (Ne.symm hk) st.notificationTemplates⟩

/-- Witness for C9 on the seeded initial store: deleting the absent customer
999 returns false and changes nothing; deleting the present product 2 returns
true. -/
theorem c9_delete_semantics_witness :
    deleteCustomer initState 999 = (false, initState) ∧
    (deleteProduct initState 2).1 = true := by
  constructor
  · exact (c9_delete_semantics initState Reachable.init 999).1.1 (by decide)
  · exact ((c9_delete_semantics initState Reachable.init 2).2.1.2
      ⟨2, "MacBook Air M2", some "Thin and light laptop with M2 chip",
       some "https://apple.com/macbook-air-m2",
       some "https://store.storeimages.cdn-apple.com/4982/as-images.apple.com/is/macbook-air-midnight-select-20220606.jpg",
       1⟩ (by decide)).1

/-- C10: key identity — in every API-reachable state each stored record's own
id field equals the key it is stored under, for all four entity kinds; and the
merged entity returned by an update always has id equal to the requested
identifier (the partial-update schemas omit `id`, so a patch can never change
it). -/
theorem c10_key_identity :
    (∀ st : MemStorage, Reachable st →
       (∀ p ∈ st.customers, p.2.id = p.1) ∧
       (∀ p ∈ st.products, p.2.id = p.1) ∧
       (∀ p ∈ st.notifications, p.2.id = p.1) ∧
       (∀ p ∈ st.notificationTemplates, p.2.id = p.1)) ∧
    (∀ (st : MemStorage) (id : Nat) (u : CustomerPatch) (c : Customer),
       Reachable st → (updateCustomer st id u).1 = some c → c.id = id) ∧
    (∀ (st : MemStorage) (id : Nat) (u : ProductPatch) (p : Product),
       Reachable st → (updateProduct st id u).1 = some p → p.id = id) ∧
    (∀ (st : MemStorage) (id : Nat) (u : TemplatePatch) (t : NotificationTemplate),
       Reachable st → (updateNotificationTemplate st id u).1 = some t → t.id = id) := by
  refine ⟨?_, ?_, ?_, ?_⟩
  · intro st hr
    have hinv := reachable_storeInv hr
    exact ⟨fun p hp => (hinv.1.2 p hp).2, fun p hp => (hinv.2.1.2 p hp).2,
           fun p hp => (hinv.2.2.1.2 p hp).2, fun p hp => (hinv.2.2.2.2 p hp).2⟩
  · intro st id u c hr hu
    cases hg : mapGet id st.customers with
    | none => simp [updateCustomer, hg] at hu
    | some c0 =>
      simp only [updateCustomer, hg, Option.some.injEq] at hu
      subst hu
      exact ((reachable_storeInv hr).1.2 (id, c0) (mapGet_mem hg)).2
  · intro st id u p hr hu
    cases hg : mapGet id st.products with
    | none => simp [updateProduct, hg] at hu
    | some p0 =>
      simp only [updateProduct, hg, Option.some.injEq] at hu
      subst hu
      exact ((reachable_storeInv hr).2.1.2 (id, p0) (mapGet_mem hg)).2
  · intro st id u t hr hu
    cases hg : mapGet id st.notificationTemplates with
    | none => simp [updateNotificationTemplate, hg] at hu
    | some t0 =>
      simp only [updateNotificationTemplate, hg, Option.some.injEq] at hu
      subst hu
      exact ((reachable_storeInv hr).2.2.2.2 (id, t0) (mapGet_mem hg)).2

/-- Witness for C10: updating seeded customer 2's name returns a record whose
id is still 2. -/
theorem c10_key_identity_witness :
    (Customer.mk 2 "Renamed" "sarah@example.com" "+1-555-0124").id = 2 :=
  c10_key_identity.2.1 initState 2 ⟨some "Renamed", none, none⟩
    ⟨2, "Renamed", "sarah@example.com", "+1-555-0124"⟩ Reachable.init (by decide)

/-- C6 counterexample: after deleting seeded customer 4, the stored maximum
identifier is 3 but the next create assigns 5 (the per-kind counter), not
3 + 1 — "one greater than the previous maximum" fails once the maximum has
been deleted. -/
theorem c6_counterexample :
    (createCustomer (deleteCustomer initState 4).2
        ⟨"Zoe", "zoe@example.com", "+1-9"⟩).1.id = 5 ∧
    maxKey (deleteCustomer initState 4).2.customers = 3 ∧
    (5 : Nat) ≠ 3 + 1 := by decide

/-- C6 amended: create followed by get of the returned identifier yields a
record with exactly the supplied field values and a fresh identifier — the
per-kind counter, strictly greater than every stored identifier; across any
API operation sequence all four per-kind counters are monotone and stored
keys stay below them, so identifiers are never reused after deletion. -/
theorem c6_fresh_identifiers_amended :
    (∀ st : MemStorage, Reachable st →
       (∀ p ∈ st.customers, p.1 < st.currentCustomerId) ∧
       (∀ p ∈ st.products, p.1 < st.currentProductId) ∧
       (∀ p ∈ st.notifications, p.1 < st.currentNotificationId) ∧
       (∀ p ∈ st.notificationTemplates, p.1 < st.currentNotificationTemplateId)) ∧
    (∀ st st' : MemStorage, Step st st' →
       st.currentCustomerId ≤ st'.currentCustomerId ∧
       st.currentProductId ≤ st'.currentProductId ∧
       st.currentNotificationId ≤ st'.currentNotificationId ∧
       st.currentNotificationTemplateId ≤ st'.currentNotificationTemplateId) ∧
    (∀ (st : MemStorage) (ins : InsertCustomer),
       (∀ p ∈ st.customers, p.1 < st.currentCustomerId) →
       (createCustomer st ins).1.id = st.currentCustomerId ∧
       (createCustomer st ins).1.name = ins.name ∧
       (createCustomer st ins).1.email = ins.email ∧
       (createCustomer st ins).1.phoneNumber = ins.phoneNumber ∧
       getCustomer (createCustomer st ins).2 (createCustomer st ins).1.id
         = some (createCustomer st ins).1 ∧
       (∀ p ∈ st.customers, p.1 < (createCustomer st ins).1.id) ∧
       (createCustomer st ins).2.currentCustomerId = (createCustomer st ins).1.id + 1) := by
  refine ⟨?_, ?_, ?_⟩
  · intro st hr
    have hinv := reachable_storeInv hr
    exact ⟨fun p hp => (hinv.1.2 p hp).1, fun p hp => (hinv.2.1.2 p hp).1,
           fun p hp => (hinv.2.2.1.2 p hp).1, fun p hp => (hinv.2.2.2.2 p hp).1⟩
  · intro st st' hs
    exact step_counters_mono hs
  · intro st ins hfresh
    exact ⟨rfl, rfl, rfl, rfl, mapGet_set_self _ _ _, hfresh, rfl⟩

/-- Witness for C6's amended claim: creating a customer on the seeded store
(stored keys 1-4, counter 5) stores it under the fresh id 5 and get returns
exactly the record. -/
theorem c6_fresh_identifiers_amended_witness :
    getCustomer (createCustomer initState ⟨"Zoe", "zoe@example.com", "+1-9"⟩).2
        (createCustomer initState ⟨"Zoe", "zoe@example.com", "+1-9"⟩).1.id
      = some (createCustomer initState ⟨"Zoe", "zoe@example.com", "+1-9"⟩).1 :=
  (c6_fresh_identifiers_amended.2.2 initState ⟨"Zoe", "zoe@example.com", "+1-9"⟩
    (by decide)).2.2.2.2.1

/-- C8: listing all notifications returns a newest-first (by timestamp)
rearrangement of the stored notifications; the date-range query keeps exactly
the notifications whose timestamp lies in the inclusive range, newest-first; a
range excluding every record yields the empty sequence and a range spanning
every record yields exactly the full newest-first listing. -/
theorem c8_listing_sorted_and_range_inclusive (st : MemStorage) (lo hi : Nat) :
    List.Sorted newerFirst (getAllNotifications st) ∧
    List.Perm (getAllNotifications st) (st.notifications.map (·.2)) ∧
    List.Sorted newerFirst (getNotificationsByDateRange st lo hi) ∧
    (∀ n, n ∈ getNotificationsByDateRange st lo hi ↔
       n ∈ st.notifications.map (·.2) ∧ lo ≤ n.timestamp ∧ n.timestamp ≤ hi) ∧
    ((∀ n ∈ st.notifications.map (·.2), n.timestamp < lo ∨ hi < n.timestamp) →
       getNotificationsByDateRange st lo hi = []) ∧
    ((∀ n ∈ st.notifications.map (·.2), lo ≤ n.timestamp ∧ n.timestamp ≤ hi) →
       getNotificationsByDateRange st lo hi = getAllNotifications st) := by
  refine ⟨List.sorted_insertionSort _ _, List.perm_insertionSort _ _,
          List.sorted_insertionSort _ _, ?_, ?_, ?_⟩
  · intro n
    unfold getNotificationsByDateRange
    rw [List.mem_insertionSort, List.mem_filter]
    simp
  · intro h
    unfold getNotificationsByDateRange
    have : (st.notifications.map (·.2)).filter
        (fun n => decide (lo ≤ n.timestamp) && decide (n.timestamp ≤ hi)) = [] := by
      rw [List.filter_eq_nil_iff]
      intro n hn
      rcases h n hn with h1 | h1 <;> simp <;> omega
    rw [this]
    rfl
  · intro h
    unfold getNotificationsByDateRange getAllNotifications
    have : (st.notifications.map (·.2)).filter
        (fun n => decide (lo ≤ n.timestamp) && decide (n.timestamp ≤ hi))
        = st.notifications.map (·.2) := by
      rw [List.filter_eq_self]
      intro n hn
      rcases h n hn with ⟨h1, h2⟩
      simp [h1, h2]
    rw [this]

/-- Witness for C8 on a one-notification concrete store: a range spanning the
record returns the full newest-first listing. -/
theorem c8_listing_sorted_and_range_inclusive_witness :
    getNotificationsByDateRange
        ⟨[], [], [(1, ⟨1, 1, "a@b.c", "A", "1", "m", none, [1], 10⟩)], [], 1, 1, 2, 1⟩ 5 20
      = getAllNotifications
        ⟨[], [], [(1, ⟨1, 1, "a@b.c", "A", "1", "m", none, [1], 10⟩)], [], 1, 1, 2, 1⟩ :=
  (c8_listing_sorted_and_range_inclusive
      ⟨[], [], [(1, ⟨1, 1, "a@b.c", "A", "1", "m", none, [1], 10⟩)], [], 1, 1, 2, 1⟩
      5 20).2.2.2.2.2 (by decide)

/-- C3 counterexample: with a resolved template whose raw text is empty and no
resolved product, the created notification's body is the fixed default
message, not the template's raw text (JavaScript `template?.template || ...`
falls through on the empty string) — so "otherwise the template's raw text if
a template was resolved" fails. -/
theorem c3_counterexample :
    resolveTemplate c3State (some 1) = some ⟨1, "Empty", "", none, 0, 0⟩ ∧
    firstProduct c3State [] = none ∧
    (createNotifications c3State (some 1) [] [1] 7).1.map (·.notificationBody)
      = [defaultMsg] ∧
    defaultMsg ≠ "" := by decide

/-- C3 amended: the body of every created notification is: the interpolated
template when both a template and a first product resolve; otherwise the
template's raw text when a template resolves and its raw text is non-empty;
otherwise (no template resolved, or resolved template with empty raw text)
the fixed default message — in particular, with no template identifier every
created notification's body is the fixed default message. -/
theorem c3_notification_body_amended :
    (∀ (st : MemStorage) (tid : Option Nat) (pids cids : List Nat) (now : Nat)
       (tm : NotificationTemplate) (p : Product),
       resolveTemplate st tid = some tm → firstProduct st pids = some p →
       ∀ n ∈ (createNotifications st tid pids cids now).1,
         n.notificationBody = interpolate tm.template
           ⟨n.customerId, n.customerName, n.customerEmail, n.customerPhone⟩ p) ∧
    (∀ (st : MemStorage) (tid : Option Nat) (pids cids : List Nat) (now : Nat)
       (tm : NotificationTemplate),
       resolveTemplate st tid = some tm → firstProduct st pids = none →
       tm.template ≠ "" →
       ∀ n ∈ (createNotifications st tid pids cids now).1,
         n.notificationBody = tm.template) ∧
    (∀ (st : MemStorage) (tid : Option Nat) (pids cids : List Nat) (now : Nat)
       (tm : NotificationTemplate),
       resolveTemplate st tid = some tm → firstProduct st pids = none →
       tm.template = "" →
       ∀ n ∈ (createNotifications st tid pids cids now).1,
         n.notificationBody = defaultMsg) ∧
    (∀ (st : MemStorage) (tid : Option Nat) (pids cids : List Nat) (now : Nat),
       resolveTemplate st tid = none →
       ∀ n ∈ (createNotifications st tid pids cids now).1,
         n.notificationBody = defaultMsg) ∧
    (∀ (st : MemStorage) (pids cids : List Nat) (now : Nat),
       ∀ n ∈ (createNotifications st none pids cids now).1,
         n.notificationBody = defaultMsg) := by
  refine ⟨?_, ?_, ?_, ?_, ?_⟩
  · intro st tid pids cids now tm p h1 h2 n hn
    have hb := (cnLoop_mem (resolveTemplate st tid) tid pids now cids st n hn).2.2.2
    rw [h1, h2] at hb
    exact hb
  · intro st tid pids cids now tm h1 h2 h3 n hn
    have hb := (cnLoop_mem (resolveTemplate st tid) tid pids now cids st n hn).2.2.2
    rw [h1, h2] at hb
    simpa [notifBodyOf, h3] using hb
  · intro st tid pids cids now tm h1 h2 h3 n hn
    have hb := (cnLoop_mem (resolveTemplate st tid) tid pids now cids st n hn).2.2.2
    rw [h1, h2] at hb
    simpa [notifBodyOf, h3] using hb
  · intro st tid pids cids now h1 n hn
    have hb := (cnLoop_mem (resolveTemplate st tid) tid pids now cids st n hn).2.2.2
    rw [h1] at hb
    simpa [notifBodyOf] using hb
  · intro st pids cids now n hn
    have hb := (cnLoop_mem (resolveTemplate st none) none pids now cids st n hn).2.2.2
    simpa [resolveTemplate, tidTruthy, notifBodyOf] using hb

/-- Witness for C3's amended claim: with no template identifier, the
notification created on the seeded store for customer 1 has the default
body. -/
theorem c3_notification_body_amended_witness :
    (Notification.mk 1 1 "john@example.com" "John Smith" "+1-555-0123"
        "Default notification message" none [1] 3).notificationBody
      = defaultMsg :=
  c3_notification_body_amended.2.2.2.2 initState [1] [1] 3
    (Notification.mk 1 1 "john@example.com" "John Smith" "+1-555-0123"
      "Default notification message" none [1] 3) (by decide)

/-- C2 counterexample: interpolation is not independent of the substitution
order and is affected by field values containing token text — a customer name
equal to the product-name token interpolates to the product name under the
source's order, while substituting product tokens first leaves the token text
in place.  Furthermore a field value is not always inserted verbatim: a
customer name of two dollar signs yields one dollar sign in the body
(JavaScript dollar substitution of string replacement values). -/
theorem c2_counterexample :
    interpolate tokCustomerName
        ⟨1, "\x7b\x7bproduct.name\x7d\x7d", "ana@example.com", "+1-5"⟩
        ⟨1, "Widget", none, none, none, 1⟩ = "Widget" ∧
    interpolateRev tokCustomerName
        ⟨1, "\x7b\x7bproduct.name\x7d\x7d", "ana@example.com", "+1-5"⟩
        ⟨1, "Widget", none, none, none, 1⟩ = "\x7b\x7bproduct.name\x7d\x7d" ∧
    ("Widget" : String) ≠ "\x7b\x7bproduct.name\x7d\x7d" ∧
    interpolate tokCustomerName ⟨1, "$$", "ana@example.com", "+1-5"⟩
        ⟨1, "Widget", none, none, none, 1⟩ = "$" ∧
    ("$" : String) ≠ "$$" := by decide

/-- C2 amended: interpolation is the sequential left-to-right composition of
seven global replacements in the source's fixed order (customer name, email,
phone, then product name, description, store link, thumbnail), with the
empty string substituted for an absent optional field.  Each single pass
rewrites every (leftmost, non-overlapping) occurrence of its token and
copies everything else verbatim, so a template without any recognized token
is returned unchanged; the inserted text is the field value after JavaScript
dollar substitution, so the value appears verbatim exactly when it contains
no dollar sign.  Because the passes are sequential, a field value that
itself contains a later token's text is substituted again (see the
counterexample), so the result is not order-independent in general. -/
theorem c2_interpolation_amended :
    (∀ (t : String) (c : Customer) (p : Product),
       interpolate t c p
         = (substPairs c p).foldl (fun s pr => replaceString pr.1 pr.2 s) t) ∧
    (∀ pat repl s : List Char, occursIn pat s = false → replaceAll pat repl s = s) ∧
    (∀ matched pre suf repl : List Char, '$' ∉ repl →
       expandRepl matched pre suf repl = repl) ∧
    (∀ (pat repl : List Char) (ch : Char) (cs : List Char), '$' ∉ repl →
       stripTok pat (ch :: cs) = none →
       replaceAll pat repl (ch :: cs) = ch :: replaceAll pat repl cs) ∧
    (∀ pat repl s rest : List Char, '$' ∉ repl → pat ≠ [] →
       stripTok pat s = some rest →
       replaceAll pat repl s = repl ++ replaceAll pat repl rest) ∧
    (∀ (t : String) (c : Customer) (p : Product),
       (∀ tok ∈ tokenList, occursIn tok.data t.data = false) →
       interpolate t c p = t) ∧
    (∀ (t : String) (c : Customer) (p : Product),
       p.description = none →
       interpolate t c p = interpolate t c { p with description := some "" }) := by
  refine ⟨?_, ?_, ?_, ?_, ?_, ?_, ?_⟩
  · intro t c p
    rfl
  · intro pat repl s h
    exact replaceAll_of_not_occurs h
  · intro matched pre suf repl hd
    exact expandRepl_of_no_dollar matched pre suf hd
  · intro pat repl ch cs hd h
    exact replaceAll_cons_of_none hd h
  · intro pat repl s rest hd hp h
    exact replaceAll_of_strip hd hp h
  · intro t c p h
    unfold interpolate
    rw [replaceString_of_not_occurs (h tokCustomerName (by simp [tokenList])),
        replaceString_of_not_occurs (h tokCustomerEmail (by simp [tokenList])),
        replaceString_of_not_occurs (h tokCustomerPhone (by simp [tokenList])),
        replaceString_of_not_occurs (h tokProductName (by simp [tokenList])),
        replaceString_of_not_occurs (h tokProductDesc (by simp [tokenList])),
        replaceString_of_not_occurs (h tokProductLink (by simp [tokenList])),
        replaceString_of_not_occurs (h tokProductThumb (by simp [tokenList]))]
  · intro t c p h
    simp only [interpolate, h, Option.getD_none, Option.getD_some]

/-- Witness for C2's amended claim: a non-occurring pattern leaves a string
unchanged; a template without tokens interpolates to itself; a matched head
occurrence is replaced by a dollar-free value; dollar substitution of a
dollar-free value is the value itself. -/
theorem c2_interpolation_amended_witness :
    replaceAll ['a'] ['b'] ['c', 'd'] = ['c', 'd'] ∧
    interpolate "plain text" ⟨1, "Ana", "a@b.c", "+1"⟩ ⟨1, "W", none, none, none, 1⟩
      = "plain text" ∧
    replaceAll ['a'] ['b'] ['a', 'c'] = ['b'] ++ replaceAll ['a'] ['b'] ['c'] ∧
    expandRepl ['x'] [] [] ['y', 'z'] = ['y', 'z'] :=
  ⟨c2_interpolation_amended.2.1 ['a'] ['b'] ['c', 'd'] (by decide),
   c2_interpolation_amended.2.2.2.2.2.1 "plain text" ⟨1, "Ana", "a@b.c", "+1"⟩
     ⟨1, "W", none, none, none, 1⟩ (by decide),
   c2_interpolation_amended.2.2.2.2.1 ['a'] ['b'] ['a', 'c'] ['c']
     (by decide) (by decide) (by decide),
   c2_interpolation_amended.2.2.1 ['x'] [] [] ['y', 'z'] (by decide)⟩

theorem find?_isNone_eq_none {α : Type} {f : Nat → Option α} {l : List Nat}
    (h : ∀ i ∈ l, (f i).isSome = true) :
    l.find? (fun i => (f i).isNone) = none := by
  rw [List.find?_eq_none]
  intro x hx
  have hs := h x hx
  cases hfx : f x with
  | none => rw [hfx] at hs; simp at hs
  | some v => simp [hfx]

/-- C7 counterexample: a request referencing template identifier 0 (absent
from the store — template ids start at 1) is not rejected: JavaScript
`if (templateId)` treats 0 as falsy, skips the template check, and the route
answers 201, although the claim requires a 400 whenever a referenced template
identifier is not in the store. -/
theorem c7_counterexample :
    notifStatus (apiCreateNotifs initState (some [1]) (some [1]) (some 0) 3).1 = 201 ∧
    getNotificationTemplate initState 0 = none ∧
    (201 : Nat) ≠ 400 := by decide

/-- C7 amended: `POST /api/notifications` answers 400 with the store untouched
when the product-id or customer-id list is missing/not an array or empty, or
when some referenced product or customer identifier, or a truthy (nonzero)
supplied template identifier, is not in the store (a template identifier of 0
is treated as if no template were supplied); when all those checks pass it
answers 201 with exactly the list created by `createNotifications`. -/
theorem c7_validation_amended :
    (∀ (st : MemStorage) (cidsOpt : Option (List Nat)) (tid : Option Nat) (now : Nat),
       apiCreateNotifs st none cidsOpt tid now
         = (.badRequest "Product IDs are required", st)) ∧
    (∀ (st : MemStorage) (cidsOpt : Option (List Nat)) (tid : Option Nat) (now : Nat),
       apiCreateNotifs st (some []) cidsOpt tid now
         = (.badRequest "Product IDs are required", st)) ∧
    (∀ (st : MemStorage) (pids : List Nat) (tid : Option Nat) (now : Nat),
       pids ≠ [] →
       apiCreateNotifs st (some pids) none tid now
         = (.badRequest "Customer IDs are required", st)) ∧
    (∀ (st : MemStorage) (pids : List Nat) (tid : Option Nat) (now : Nat),
       pids ≠ [] →
       apiCreateNotifs st (some pids) (some []) tid now
         = (.badRequest "Customer IDs are required", st)) ∧
    (∀ (st : MemStorage) (pids cids : List Nat) (tid : Option Nat) (now q : Nat),
       pids ≠ [] → cids ≠ [] →
       pids.find? (fun i => (getProduct st i).isNone) = some q →
       apiCreateNotifs st (some pids) (some cids) tid now
         = (.badRequest ("Product with ID " ++ toString q ++ " not found"), st)) ∧
    (∀ (st : MemStorage) (pids cids : List Nat) (tid : Option Nat) (now cid : Nat),
       pids ≠ [] → cids ≠ [] →
       (∀ i ∈ pids, (getProduct st i).isSome = true) →
       cids.find? (fun i => (getCustomer st i).isNone) = some cid →
       apiCreateNotifs st (some pids) (some cids) tid now
         = (.badRequest ("Customer with ID " ++ toString cid ++ " not found"), st)) ∧
    (∀ (st : MemStorage) (pids cids : List Nat) (tid : Option Nat) (now t : Nat),
       pids ≠ [] → cids ≠ [] →
       (∀ i ∈ pids, (getProduct st i).isSome = true) →
       (∀ i ∈ cids, (getCustomer st i).isSome = true) →
       tidTruthy tid = some t → getNotificationTemplate st t = none →
       apiCreateNotifs st (some pids) (some cids) tid now
         = (.badRequest ("Template with ID " ++ toString t ++ " not found"), st)) ∧
    (∀ (st : MemStorage) (pids cids : List Nat) (tid : Option Nat) (now : Nat),
       pids ≠ [] → cids ≠ [] →
       (∀ i ∈ pids, (getProduct st i).isSome = true) →
       (∀ i ∈ cids, (getCustomer st i).isSome = true) →
       (∀ t, tidTruthy tid = some t → (getNotificationTemplate st t).isSome = true) →
       apiCreateNotifs st (some pids) (some cids) tid now
         = (.created (createNotifications st tid pids cids now).1,
            (createNotifications st tid pids cids now).2)) := by
  refine ⟨?_, ?_, ?_, ?_, ?_, ?_, ?_, ?_⟩
  · intro st cidsOpt tid now
    rfl
  · intro st cidsOpt tid now
    rfl
  · intro st pids tid now h1
    simp [apiCreateNotifs, h1]
  · intro st pids tid now h1
    simp [apiCreateNotifs, h1]
  · intro st pids cids tid now q h1 h2 hfind
    simp [apiCreateNotifs, h1, h2, hfind]
  · intro st pids cids tid now cid h1 h2 hp hfind
    have hfp := find?_isNone_eq_none (f := getProduct st) hp
    simp [apiCreateNotifs, h1, h2, hfp, hfind]
  · intro st pids cids tid now t h1 h2 hp hc htid hnone
    have hfp := find?_isNone_eq_none (f := getProduct st) hp
    have hfc := find?_isNone_eq_none (f := getCustomer st) hc
    simp [apiCreateNotifs, h1, h2, hfp, hfc, htid, hnone]
  · intro st pids cids tid now h1 h2 hp hc ht
    have hfp := find?_isNone_eq_none (f := getProduct st) hp
    have hfc := find?_isNone_eq_none (f := getCustomer st) hc
    cases htt : tidTruthy tid with
    | none => simp [apiCreateNotifs, h1, h2, hfp, hfc, htt]
    | some t =>
      have hsome := ht t htt
      have hfalse : (getNotificationTemplate st t).isNone = false := by
        cases hg : getNotificationTemplate st t with
        | none => rw [hg] at hsome; simp at hsome
        | some x => simp [hg]
      simp [apiCreateNotifs, h1, h2, hfp, hfc, htt, hfalse]

/-- Witness for C7's amended claim: on the seeded store a request for product
[1], customer [1] and no template passes validation and answers 201. -/
theorem c7_validation_amended_witness :
    notifStatus (apiCreateNotifs initState (some [1]) (some [1]) none 3).1 = 201 := by
  rw [c7_validation_amended.2.2.2.2.2.2.2 initState [1] [1] none 3
    (by decide) (by decide) (by decide) (by decide)
    (fun t ht => Option.noConfusion ht)]
  rfl

end DPP
